import Mathlib

/-!
Shallow embedding of the core algorithms of the `time_lapse` repository
(`automate_timelapse.py`, `automate_overlapping_timelapse.py`,
`automate_goldenhour.py`, `automate_rewind.py`) together with proofs of the
specification claims about them.

Modelling conventions:
* timestamps are exact rationals (seconds); Python float arithmetic on
  timestamps is modelled exactly;
* file paths are abstract identifiers (`ℕ`), dir-major, so that the order of
  the encoded identifiers matches the lexicographic order of the joined path
  strings that the scripts compare;
* the external EXIF reader is a function `ℕ → Option ℚ` from a path identifier
  to the capture time it reports (absent reads return `none`);
* Python `list.sort` is a stable sort; it is modelled by `List.insertionSort`,
  which inserts every element in front of the equal elements already placed,
  i.e. preserves the relative order of elements the comparison ties;
* real-valued solar arithmetic (the `math.cos` etc. calls) is modelled over
  `ℝ` in the `Solar` namespace below.
-/

namespace TimeLapse

/-- Python builtin int() applied to an exact rational: truncation toward zero. -/
def pyInt (q : ℚ) : ℤ := if q < 0 then ⌈q⌉ else ⌊q⌋

/-- Semantics of the Python extended slice l[::k] for a step k ≥ 1: the
elements at positions 0, k, 2k, … of l. -/
def everyNth {α : Type _} : List α → ℕ → List α
  | [], _ => []
  | x :: xs, k => x :: everyNth (xs.drop (k - 1)) k
termination_by l _ => l.length
decreasing_by
  simp only [List.length_drop, List.length_cons]
  omega

/-- Semantics of the Python extended slice l[::-k] for k ≥ 1: every k-th
element in reverse order, starting from the last element. -/
def sliceRevEvery {α : Type _} (l : List α) (k : ℕ) : List α := everyNth l.reverse k

/-- One frame of the global timeline: its (interpolated) timestamp in seconds
and the abstract identifier of its path, mirroring the (datetime, path) pairs
stored in GlobalTimeline.frames. -/
abbrev Frame : Type := ℚ × ℕ

/-- Abstract os.path.join(root, name): a dir-major path identifier whose
numeric order agrees with the lexicographic order of the path strings. -/
def pathId (dir name : ℕ) : ℕ := 1000 * dir + name

/-- One archive subdirectory together with its matching TLS_ frame files:
a capture session, the unit the indexing loops work on. -/
structure Session where
  dir : ℕ
  files : List ℕ

/-- Comparison used by frames.sort(key=lambda x: x[0]): order by timestamp
only (the goldenhour / rewind variants). -/
def tsLe (a b : Frame) : Prop := a.1 ≤ b.1

/-- Python tuple comparison on (timestamp, path) pairs, the order used by the
bare frames.sort() of the overlapping variant. -/
def lexLe (a b : Frame) : Prop := a.1 < b.1 ∨ (a.1 = b.1 ∧ a.2 ≤ b.2)

instance : DecidableRel tsLe :=
  fun a b => inferInstanceAs (Decidable (a.1 ≤ b.1))

instance : DecidableRel lexLe :=
  fun a b => inferInstanceAs (Decidable (a.1 < b.1 ∨ (a.1 = b.1 ∧ a.2 ≤ b.2)))

instance : IsTotal Frame tsLe :=
  ⟨fun a b => le_total a.1 b.1⟩

instance : IsTrans Frame tsLe :=
  ⟨fun _ _ _ h1 h2 => le_trans h1 h2⟩

instance : IsTotal Frame lexLe := by
  constructor
  intro a b
  rcases lt_trichotomy a.1 b.1 with h | h | h
  · exact Or.inl (Or.inl h)
  · rcases le_total a.2 b.2 with h2 | h2
    · exact Or.inl (Or.inr ⟨h, h2⟩)
    · exact Or.inr (Or.inr ⟨h.symm, h2⟩)
  · exact Or.inr (Or.inl h)

instance : IsTrans Frame lexLe := by
  constructor
  intro a b c h1 h2
  rcases h1 with h1 | ⟨h1, h1b⟩
  · rcases h2 with h2 | ⟨h2, _⟩
    · exact Or.inl (h1.trans h2)
    · exact Or.inl (h2 ▸ h1)
  · rcases h2 with h2 | ⟨h2, h2b⟩
    · exact Or.inl (h1 ▸ h2)
    · exact Or.inr ⟨h1.trans h2, h1b.trans h2b⟩

/-- Filename sort applied to the TLS_ files of a directory before indexing
(the sorted(...) call in every variant). -/
def sortedFiles (s : Session) : List ℕ :=
  List.insertionSort (fun a b : ℕ => a ≤ b) s.files

namespace Goldenhour

/-- Timestamps assigned to one session (automate_goldenhour lines 53-57, and
identically automate_rewind lines 53-57): linear interpolation between the
first and last real capture time, with a fixed 10-second interval for a
single-frame session. -/
def session_frames (dir : ℕ) (fs : List ℕ) (t0 tn : ℚ) : List Frame :=
  let count := fs.length
  let interval : ℚ := if 1 < count then (tn - t0) / ((count : ℚ) - 1) else 10
  fs.enum.map fun p => (t0 + (p.1 : ℚ) * interval, pathId dir p.2)

/-- Test `if start_cutoff and t0 < start_cutoff` of line 50: an absent cutoff
never blocks. -/
def cutoff_blocks (cutoff : Option ℚ) (t0 : ℚ) : Bool :=
  match cutoff with
  | none => false
  | some c => decide (t0 < c)

/-- Frames contributed by one loop iteration of GlobalTimeline.__init__
(automate_goldenhour lines 44-57): empty when the directory has no matching
files, when the first or last EXIF read fails, or when the cutoff excludes
the session; otherwise the interpolated session frames. -/
def session_output (exif : ℕ → Option ℚ) (cutoff : Option ℚ) (s : Session) : List Frame :=
  match sortedFiles s with
  | [] => []
  | f0 :: fs =>
    match exif (pathId s.dir f0) with
    | none => []
    | some t0 =>
      if cutoff_blocks cutoff t0 then []
      else
        match exif (pathId s.dir ((f0 :: fs).getLast (List.cons_ne_nil f0 fs))) with
        | none => []
        | some tn => session_frames s.dir (f0 :: fs) t0 tn

/-- Accumulated frame list of the indexing loop, in directory-visit
(discovery) order, before the final sort of line 58. -/
def build (exif : ℕ → Option ℚ) (cutoff : Option ℚ) (ss : List Session) : List Frame :=
  ss.flatMap (session_output exif cutoff)

/-- Completed GlobalTimeline.frames of the goldenhour / rewind variants:
the accumulator sorted by self.frames.sort(key=lambda x: x[0]) (line 58),
a stable sort on the timestamp alone. -/
def timeline (exif : ℕ → Option ℚ) (cutoff : Option ℚ) (ss : List Session) : List Frame :=
  List.insertionSort tsLe (build exif cutoff ss)

end Goldenhour

namespace Overlapping

/-- Timestamps assigned to one session by automate_overlapping_timelapse
lines 85-88: a fixed 10-second spacing from the first timestamp (the last
timestamp tn is read only to validate the session and is otherwise unused). -/
def session_frames (dir : ℕ) (fs : List ℕ) (t0 : ℚ) : List Frame :=
  fs.enum.map fun p => (t0 + (p.1 : ℚ) * 10, pathId dir p.2)

/-- Frames contributed by one loop iteration of GlobalTimeline.__init__
(automate_overlapping_timelapse lines 71-88). The hardcoded constant
CUTOFF_DATE = datetime(2025, 3, 20) is kept as the parameter cutoff. -/
def session_output (exif : ℕ → Option ℚ) (cutoff : ℚ) (s : Session) : List Frame :=
  match sortedFiles s with
  | [] => []
  | f0 :: fs =>
    match exif (pathId s.dir f0) with
    | none => []
    | some t0 =>
      if t0 < cutoff then []
      else
        match exif (pathId s.dir ((f0 :: fs).getLast (List.cons_ne_nil f0 fs))) with
        | none => []
        | some _ => session_frames s.dir (f0 :: fs) t0

/-- Accumulated frame list of the overlapping indexing loop in discovery
order, before the final sort of line 90. -/
def build (exif : ℕ → Option ℚ) (cutoff : ℚ) (ss : List Session) : List Frame :=
  ss.flatMap (session_output exif cutoff)

/-- Completed GlobalTimeline.frames of the overlapping variant: the
accumulator sorted by the bare self.frames.sort() of line 90, i.e. by the
full (timestamp, path) tuples. -/
def timeline (exif : ℕ → Option ℚ) (cutoff : ℚ) (ss : List Session) : List Frame :=
  List.insertionSort lexLe (build exif cutoff ss)

/-- Result of bisect.bisect_left(self.frames, (target_time, "")) on the
sorted list (get_range line 102): the leftmost insertion point, i.e. the
number of frames strictly below the probe in tuple order.  No path compares
strictly below the empty string, so this counts exactly the frames whose
timestamp is < target. -/
def anchor_index (frames : List Frame) (target : ℚ) : ℤ :=
  (((List.insertionSort lexLe frames).countP fun f => decide (f.1 < target) : ℕ) : ℤ)

/-- Value frames_before = int(num_frames * center_ratio) of get_range
line 95, with num_frames = duration_sec * 30. -/
def frames_before (duration_sec : ℕ) (center_ratio : ℚ) : ℤ :=
  pyInt ((duration_sec : ℚ) * 30 * center_ratio)

/-- Window clamping of get_range lines 104-109: start at
max(0, idx - frames_before), take num_frames frames, and if the end passes
the archive length shift the whole window left instead of truncating. -/
def window_bounds (frames : List Frame) (target : ℚ) (duration_sec : ℕ)
    (center_ratio : ℚ) : ℤ × ℤ :=
  let num : ℤ := (duration_sec : ℤ) * 30
  let start0 : ℤ := max 0 (anchor_index frames target - frames_before duration_sec center_ratio)
  let len : ℤ := ((List.insertionSort lexLe frames).length : ℤ)
  if len < start0 + num then (max 0 (len - num), len) else (start0, start0 + num)

/-- GlobalTimeline.get_range (automate_overlapping_timelapse lines 93-111):
sort, locate the anchor by bisection, clamp the window, and return the slice
self.frames[start_idx:end_idx]. -/
def get_range (frames : List Frame) (target : ℚ) (duration_sec : ℕ)
    (center_ratio : ℚ) : List Frame :=
  ((List.insertionSort lexLe frames).drop
      (window_bounds frames target duration_sec center_ratio).1.toNat).take
    ((window_bounds frames target duration_sec center_ratio).2
      - (window_bounds frames target duration_sec center_ratio).1).toNat

end Overlapping

namespace Timelapse

/-- find_frames_for_event (automate_timelapse lines 87-114).  The first
argument says whether TLS_000000001.jpg exists; exif_t0 is the EXIF reader's
answer for it and file_mtime the file's modification time used as the
fallback timestamp when the EXIF read fails (lines 96-99). -/
def find_frames_for_event (first_frame_exists : Bool) (exif_t0 : Option ℚ)
    (file_mtime : ℚ) (target_time : ℚ) (duration_seconds fps : ℕ)
    (interval_seconds center_ratio : ℚ) : Option (ℤ × ℤ) :=
  if !first_frame_exists then none
  else
    let t0 := exif_t0.getD file_mtime
    let target_frame := pyInt ((target_time - t0) / interval_seconds) + 1
    let num_frames : ℤ := (duration_seconds : ℤ) * (fps : ℤ)
    let before := pyInt ((duration_seconds : ℚ) * (fps : ℚ) * center_ratio)
    let start_frame := max 1 (target_frame - before)
    some (start_frame, start_frame + num_frames)

end Timelapse

namespace Rewind

/-- Rewind sub-sequence of create_video_with_rewind (automate_rewind lines
67-70): frame_list[::-step] with step = max(1, N // 45). -/
def rewind_frames {α : Type _} (l : List α) : List α :=
  sliceRevEvery l (max 1 (l.length / 45))

/-- Concatenated forward-then-rewind list full_list = frame_list +
rewind_frames of automate_rewind line 73. -/
def full_list {α : Type _} (l : List α) : List α := l ++ rewind_frames l

end Rewind

/-- Naive Python datetime restricted to the fields the scripts compare:
(year, month, day, hour). -/
structure PyDateTime where
  year : ℤ
  month : ℤ
  day : ℤ
  hour : ℤ
deriving DecidableEq

/-- Python datetime strict comparison: field-lexicographic. -/
def dtLt (a b : PyDateTime) : Prop :=
  a.year < b.year ∨ (a.year = b.year ∧
    (a.month < b.month ∨ (a.month = b.month ∧
      (a.day < b.day ∨ (a.day = b.day ∧ a.hour < b.hour)))))

/-- Python datetime non-strict comparison. -/
def dtLe (a b : PyDateTime) : Prop := dtLt a b ∨ a = b

instance (a b : PyDateTime) : Decidable (dtLt a b) :=
  inferInstanceAs (Decidable (_ ∨ _))

instance (a b : PyDateTime) : Decidable (dtLe a b) :=
  inferInstanceAs (Decidable (_ ∨ _))

/-- get_local_offset of automate_overlapping_timelapse lines 11-26: the
hand-maintained DST table.  DST window start/end instants are enumerated for
2025 and 2026 only; every other year falls through to the fixed PST offset
of -8. -/
def get_local_offset (dt : PyDateTime) : ℤ :=
  if dt.year = 2025 then
    if dtLe ⟨2025, 3, 9, 2⟩ dt ∧ dtLt dt ⟨2025, 11, 2, 2⟩ then -7 else -8
  else if dt.year = 2026 then
    if dtLe ⟨2026, 3, 8, 2⟩ dt ∧ dtLt dt ⟨2026, 11, 1, 2⟩ then -7 else -8
  else -8

/-- Window computation of the goldenhour main block (automate_goldenhour
lines 116-124): raw window [sunset - 150 min, sunset + 120 min], each side
capped by min against the per-date wall-clock bound (17:00 and 21:00).
Times are minutes on the given local day. -/
def golden_window (sunset target_5pm target_9pm : ℚ) : ℚ × ℚ :=
  (min (sunset - 150) target_5pm, min (sunset + 120) target_9pm)

/-- Window computation of the rewind main block (automate_rewind lines
121-125): the start side is capped exactly like the goldenhour variant, the
end is exactly the nautical dusk instant. -/
def rewind_window (sunset nautical_dusk target_5pm : ℚ) : ℚ × ℚ :=
  (min (sunset - 150) target_5pm, nautical_dusk)

/-- Sample archive for concrete instances: forty frames with timestamps
0, 1, …, 39 and matching path identifiers. -/
def sample_frames : List Frame := (List.range 40).map fun i => (((i : ℕ) : ℚ), i)

/-- Exif reader for the interpolation counterexample: the two files of the
session in directory 7 carry capture times 0 and 40. -/
def exif_c2 : ℕ → Option ℚ :=
  fun p => if p = pathId 7 0 then some 0 else if p = pathId 7 1 then some 40 else none

/-- Exif reader for the stability counterexample: every read succeeds and
reports the same capture time 5. -/
def exif_c3 : ℕ → Option ℚ := fun _ => some 5

namespace Solar

noncomputable section

/-- San Francisco latitude constant shared by all four scripts. -/
def LATITUDE : ℝ := 37.791667734079596

/-- San Francisco longitude constant shared by all four scripts. -/
def LONGITUDE : ℝ := -122.41549323195979

/-- math.radians. -/
def radiansOf (x : ℝ) : ℝ := x * Real.pi / 180

/-- math.degrees. -/
def degreesOf (x : ℝ) : ℝ := x * 180 / Real.pi

/-- Fractional-year angle gamma = (2 pi / 365) * (day_of_year - 1) computed
by every variant from date.timetuple().tm_yday. -/
def gamma (day_of_year : ℕ) : ℝ := 2 * Real.pi / 365 * ((day_of_year : ℝ) - 1)

/-- Equation-of-time Fourier series (identical in all four scripts). -/
def eqtime (g : ℝ) : ℝ :=
  229.18 * (0.000075 + 0.001868 * Real.cos g - 0.032077 * Real.sin g
    - 0.014615 * Real.cos (2 * g) - 0.040849 * Real.sin (2 * g))

/-- Solar declination Fourier series (identical in all four scripts). -/
def decl (g : ℝ) : ℝ :=
  0.006918 - 0.399912 * Real.cos g + 0.070257 * Real.sin g
    - 0.006758 * Real.cos (2 * g) + 0.000907 * Real.sin (2 * g)
    - 0.002697 * Real.cos (3 * g) + 0.00148 * Real.sin (3 * g)

/-- Latitude in radians, rad_lat = math.radians(LATITUDE). -/
def rad_lat : ℝ := radiansOf LATITUDE

/-- Hour-angle cosine for a configurable zenith (the zenith_deg parameter of
automate_rewind.get_sun_time; the other variants fix zenith_deg = 90.833):
cos_ha = cos(zenith)/(cos(lat)*cos(decl)) - tan(lat)*tan(decl). -/
def cos_ha_z (zenith_deg : ℝ) (g : ℝ) : ℝ :=
  Real.cos (radiansOf zenith_deg) / (Real.cos rad_lat * Real.cos (decl g))
    - Real.tan rad_lat * Real.tan (decl g)

/-- Hour-angle cosine at the standard sunrise/sunset zenith 90.833 degrees. -/
def cos_ha (g : ℝ) : ℝ := cos_ha_z 90.833 g

/-- Solar noon in UTC minutes, solar_noon_utc = 720 - 4*LONGITUDE - eqtime. -/
def solar_noon_utc (g : ℝ) : ℝ := 720 - 4 * LONGITUDE - eqtime g

/-- Python float modulo with a positive divisor: x % y = x - y*floor(x/y),
always in [0, y). -/
def pyMod (x y : ℝ) : ℝ := x - y * ⌊x / y⌋

/-- Python builtin int() on a float value: truncation toward zero. -/
def pyIntR (x : ℝ) : ℤ := if x < 0 then ⌈x⌉ else ⌊x⌋

/-- get_sun_time of automate_timelapse (lines 12-76) with the applied UTC
offset as a parameter: automate_timelapse hardcodes offset = -8 (line 68),
automate_overlapping_timelapse passes get_local_offset(date) (lines 55-57),
which is -8 or -7.  The result is the (hour, minute) pair of the returned
datetime, which both scripts build on the same calendar date as the query;
`none` is the polar no-event outcome of lines 43-46. -/
def get_sun_time (offset : ℝ) (day_of_year : ℕ) (sunrise : Bool) : Option (ℤ × ℤ) :=
  if 1 < cos_ha (gamma day_of_year) ∨ cos_ha (gamma day_of_year) < -1 then none
  else
    let ha : ℝ := if sunrise then -Real.arccos (cos_ha (gamma day_of_year))
      else Real.arccos (cos_ha (gamma day_of_year))
    let ha_deg := degreesOf ha
    let t1 := solar_noon_utc (gamma day_of_year) - 4 * ha_deg
    let t2 := solar_noon_utc (gamma day_of_year) + 4 * ha_deg
    let utctime := if sunrise then min t1 t2 else max t1 t2
    let local_time_min := pyMod (utctime + offset * 60) 1440
    some (⌊local_time_min / 60⌋, pyIntR (pyMod local_time_min 60))

/-- get_sun_time of automate_rewind (lines 14-31) with its zenith_deg
parameter (automate_goldenhour.get_sunset_time is the same function with
zenith_deg fixed to 90.833).  It computes only the evening crossing, as UTC
minutes from midnight; the subsequent pytz astimezone conversion is an
external total conversion that preserves definedness, so the returned value
here is the UTC instant.  `none` is the polar no-event outcome of line 26. -/
def get_sun_time_z (zenith_deg : ℝ) (day_of_year : ℕ) : Option ℝ :=
  if 1 < cos_ha_z zenith_deg (gamma day_of_year)
      ∨ cos_ha_z zenith_deg (gamma day_of_year) < -1 then none
  else
    some (solar_noon_utc (gamma day_of_year)
      + 4 * degreesOf (Real.arccos (cos_ha_z zenith_deg (gamma day_of_year))))

end

end Solar

/-! Helper lemmas about the slice semantics. -/

theorem everyNth_getElem? {α : Type _} (l : List α) (k : ℕ) :
    0 < k → ∀ j : ℕ, (everyNth l k)[j]? = l[j * k]? := by
  induction l, k using everyNth.induct with
  | case1 k => intro hk j; simp [everyNth]
  | case2 x xs k ih =>
    intro hk j
    cases j with
    | zero => simp [everyNth]
    | succ j =>
      have h := ih hk j
      have hidx : (j + 1) * k = k - 1 + j * k + 1 := by
        have h2 : (j + 1) * k = j * k + k := by ring
        omega
      simp only [everyNth, List.getElem?_cons_succ, h, List.getElem?_drop, hidx]

theorem everyNth_length {α : Type _} (l : List α) (k : ℕ) :
    0 < k → (everyNth l k).length = (l.length + k - 1) / k := by
  induction l, k using everyNth.induct with
  | case1 k =>
    intro hk
    simp only [everyNth, List.length_nil, Nat.zero_add]
    exact (Nat.div_eq_of_lt (by omega)).symm
  | case2 x xs k ih =>
    intro hk
    simp only [everyNth, List.length_cons, ih hk, List.length_drop]
    rw [show xs.length + 1 + k - 1 = xs.length + k by omega,
      Nat.add_div_right _ hk]
    rcases le_or_lt (k - 1) xs.length with h | h
    · rw [show xs.length - (k - 1) + k - 1 = xs.length by omega]
    · rw [show xs.length - (k - 1) + k - 1 = k - 1 by omega,
        Nat.div_eq_of_lt (by omega), Nat.div_eq_of_lt (by omega)]

/-- C4 helper: the rewind step is at least one. -/
theorem rewind_step_pos (n : ℕ) : 0 < max 1 (n / 45) := le_max_left 1 _

/-! Claim theorems for the rewind transform. -/

/-- C4: for a forward sequence of length N ≥ 1 and rewind target M = 45 the
transform uses step = max(1, N // 45); the appended sub-sequence is exactly
every step-th frame in reverse order starting from the last frame (element j
of the sub-sequence is element N - 1 - j*step of the input), its length is
ceil(N/step) = (N + step - 1) / step, and the concatenated output has length
N plus that length. -/
theorem spec_c4_rewind {α : Type _} (l : List α) (h : 1 ≤ l.length) :
    (Rewind.rewind_frames l).length
        = (l.length + max 1 (l.length / 45) - 1) / max 1 (l.length / 45)
    ∧ (Rewind.full_list l).length
        = l.length + (l.length + max 1 (l.length / 45) - 1) / max 1 (l.length / 45)
    ∧ ∀ j : ℕ, j < (l.length + max 1 (l.length / 45) - 1) / max 1 (l.length / 45) →
        (Rewind.rewind_frames l)[j]? = l[l.length - 1 - j * max 1 (l.length / 45)]? := by
  set k := max 1 (l.length / 45) with hk
  have hkpos : 0 < k := rewind_step_pos l.length
  have hlen : (Rewind.rewind_frames l).length = (l.length + k - 1) / k := by
    unfold Rewind.rewind_frames sliceRevEvery
    rw [everyNth_length _ _ hkpos, List.length_reverse]
  refine ⟨hlen, ?_, ?_⟩
  · unfold Rewind.full_list
    rw [List.length_append, hlen]
  · intro j hj
    unfold Rewind.rewind_frames sliceRevEvery
    rw [everyNth_getElem? _ _ hkpos]
    have hjk : j * k < l.length := by
      have h1 : (j + 1) * k ≤ ((l.length + k - 1) / k) * k :=
        Nat.mul_le_mul_right k hj
      have h2 : ((l.length + k - 1) / k) * k ≤ l.length + k - 1 :=
        Nat.div_mul_le_self _ _
      have h3 : (j + 1) * k = j * k + k := by ring
      omega
    rw [List.getElem?_reverse hjk]

/-- C10: in the concatenated forward-then-rewind output the reversed
sub-sequence starts with the input's last frame, so that frame occupies both
position N-1 (end of the forward part) and position N (start of the rewind
part): it appears twice in immediate succession at the splice point. -/
theorem spec_c10_splice {α : Type _} (l : List α) (h : 0 < l.length) :
    (Rewind.full_list l)[l.length - 1]? = l.getLast?
    ∧ (Rewind.full_list l)[l.length]? = l.getLast? := by
  constructor
  · unfold Rewind.full_list
    rw [List.getElem?_append_left (by omega), List.getLast?_eq_getElem?]
  · unfold Rewind.full_list
    rw [List.getElem?_append_right (le_refl l.length), Nat.sub_self]
    unfold Rewind.rewind_frames sliceRevEvery
    rw [everyNth_getElem? _ _ (rewind_step_pos l.length) 0, Nat.zero_mul,
      ← List.head?_eq_getElem?, List.head?_reverse]

/-- C4 witness: concrete instance with N = 100, step = 2, rewind length
ceil(100/2) = 50, total length 150, and sub-sequence element 3 equal to input
element 100 - 1 - 3*2 = 93. -/
theorem spec_c4_witness :
    (Rewind.rewind_frames (List.range 100)).length
        = (100 + max 1 (100 / 45) - 1) / max 1 (100 / 45)
    ∧ (Rewind.full_list (List.range 100)).length
        = 100 + (100 + max 1 (100 / 45) - 1) / max 1 (100 / 45)
    ∧ (Rewind.rewind_frames (List.range 100))[3]?
        = (List.range 100)[100 - 1 - 3 * max 1 (100 / 45)]? := by
  obtain ⟨h1, h2, h3⟩ := spec_c4_rewind (List.range 100) (by simp)
  exact ⟨by simpa using h1, by simpa using h2, by simpa using h3 3 (by simp)⟩

/-- C10 witness: the singleton list [3] gives full_list [3, 3], whose
positions 0 and 1 both hold the last (only) input frame. -/
theorem spec_c10_witness :
    (Rewind.full_list [(3 : ℕ)])[0]? = some 3
    ∧ (Rewind.full_list [(3 : ℕ)])[1]? = some 3 := by
  obtain ⟨h1, h2⟩ := spec_c10_splice [(3 : ℕ)] (by simp)
  exact ⟨by simpa using h1, by simpa using h2⟩

/-! Claim theorem for the window capping. -/

/-- C5: for a raw window [sunset - 150, sunset + 120] and per-date bounds
(bs, be), the capped window is exactly (min(rs, bs), min(re, be)); each side
takes the earlier of its two candidates, both in the not-capped case (raw
bound earlier) and in the capped case (wall-clock bound earlier).  The
rewind variant caps its start the same way and ends exactly at nautical
dusk, which is both candidates of its end side at once. -/
theorem spec_c5_capping (sunset bs be dusk : ℚ) :
    golden_window sunset bs be = (min (sunset - 150) bs, min (sunset + 120) be)
    ∧ (sunset - 150 ≤ bs → (golden_window sunset bs be).1 = sunset - 150)
    ∧ (bs ≤ sunset - 150 → (golden_window sunset bs be).1 = bs)
    ∧ (sunset + 120 ≤ be → (golden_window sunset bs be).2 = sunset + 120)
    ∧ (be ≤ sunset + 120 → (golden_window sunset bs be).2 = be)
    ∧ (rewind_window sunset dusk bs).1 = min (sunset - 150) bs
    ∧ (rewind_window sunset dusk bs).2 = min dusk dusk := by
  unfold golden_window rewind_window
  refine ⟨rfl, ?_, ?_, ?_, ?_, rfl, (min_self dusk).symm⟩
  · intro h; exact min_eq_left h
  · intro h; exact min_eq_right h
  · intro h; exact min_eq_left h
  · intro h; exact min_eq_right h

/-- C5 witness: a not-capped start (sunset 18:40 = 1120 min, raw start 850 <
bound 900) and a capped start (bound 800 < raw start 850), and the
corresponding end sides. -/
theorem spec_c5_witness :
    (golden_window 1000 900 1200).1 = 850
    ∧ (golden_window 1000 800 1200).1 = 800
    ∧ (golden_window 1000 900 1200).2 = 1120
    ∧ (golden_window 1000 900 1100).2 = 1100 := by
  refine ⟨?_, ?_, ?_, ?_⟩
  · have h := (spec_c5_capping 1000 900 1200 0).2.1 (by norm_num)
    rw [h]; norm_num
  · have h := (spec_c5_capping 1000 800 1200 0).2.2.1 (by norm_num)
    rw [h]
  · have h := (spec_c5_capping 1000 900 1200 0).2.2.2.1 (by norm_num)
    rw [h]; norm_num
  · have h := (spec_c5_capping 1000 900 1100 0).2.2.2.2.1 (by norm_num)
    rw [h]

/-! Claim theorem for the timezone conversion. -/

/-- C8: the conversion to local wall-clock time is not DST-aware.
get_local_offset is a hand-maintained table enumerating only 2025 and 2026:
on 2026-07-01 it returns -7 (PDT), but on the same calendar day of 2027 it
falls through to the fixed -8 default even though daylight saving time is in
effect in America/Los_Angeles on that date; within the enumerated years the
table switches between -7 (2025-07-01) and -8 (2025-01-01).
automate_timelapse applies a fixed -8 offset unconditionally. -/
theorem spec_c8_dst_table :
    get_local_offset ⟨2027, 7, 1, 0⟩ = -8
    ∧ get_local_offset ⟨2026, 7, 1, 0⟩ = -7
    ∧ get_local_offset ⟨2025, 7, 1, 0⟩ = -7
    ∧ get_local_offset ⟨2025, 1, 1, 0⟩ = -8 := by
  refine ⟨by decide, by decide, by decide, by decide⟩

/-! Claim theorems for atomic session skipping. -/

/-- C9 helper: a session whose first or last EXIF read fails contributes no
frames to the goldenhour accumulator. -/
theorem golden_session_output_eq_nil (exif : ℕ → Option ℚ) (cutoff : Option ℚ)
    (s : Session)
    (hfail : (∃ f0, (sortedFiles s).head? = some f0 ∧ exif (pathId s.dir f0) = none)
      ∨ (∃ fl, (sortedFiles s).getLast? = some fl ∧ exif (pathId s.dir fl) = none)) :
    Goldenhour.session_output exif cutoff s = [] := by
  unfold Goldenhour.session_output
  split
  · rfl
  next f0 fs hfs =>
    rcases hfail with ⟨f0x, hhead, hnone⟩ | ⟨fl, hlast, hnone⟩
    · rw [hfs] at hhead
      simp only [List.head?_cons, Option.some.injEq] at hhead
      subst hhead
      rw [hnone]
    · rw [hfs, List.getLast?_eq_getLast _ (List.cons_ne_nil f0 fs),
        Option.some.injEq] at hlast
      subst hlast
      split
      · rfl
      · split
        · rfl
        · rw [hnone]

/-- C9 helper: a session whose first or last EXIF read fails contributes no
frames to the overlapping accumulator either. -/
theorem overlapping_session_output_eq_nil (exif : ℕ → Option ℚ) (cutoff : ℚ)
    (s : Session)
    (hfail : (∃ f0, (sortedFiles s).head? = some f0 ∧ exif (pathId s.dir f0) = none)
      ∨ (∃ fl, (sortedFiles s).getLast? = some fl ∧ exif (pathId s.dir fl) = none)) :
    Overlapping.session_output exif cutoff s = [] := by
  unfold Overlapping.session_output
  split
  · rfl
  next f0 fs hfs =>
    rcases hfail with ⟨f0x, hhead, hnone⟩ | ⟨fl, hlast, hnone⟩
    · rw [hfs] at hhead
      simp only [List.head?_cons, Option.some.injEq] at hhead
      subst hhead
      rw [hnone]
    · rw [hfs, List.getLast?_eq_getLast _ (List.cons_ne_nil f0 fs),
        Option.some.injEq] at hlast
      subst hlast
      split
      · rfl
      · split
        · rfl
        · rw [hnone]

/-- C9 (amended): in all three GlobalTimeline index builders (the goldenhour
and rewind variants share the Goldenhour embedding; the overlapping variant
is the Overlapping embedding), a session whose first or last EXIF read fails
is skipped atomically: removing it from the directory walk changes neither
the raw accumulator nor the final sorted index, so none of its frames enter
the index, no fallback timestamp is substituted, and the sessions after it
are processed exactly as before. -/
theorem spec_c9_atomic_skip (exif : ℕ → Option ℚ) (cutoff : Option ℚ)
    (cutoff_ovl : ℚ) (pre post : List Session) (s : Session)
    (hfail : (∃ f0, (sortedFiles s).head? = some f0 ∧ exif (pathId s.dir f0) = none)
      ∨ (∃ fl, (sortedFiles s).getLast? = some fl ∧ exif (pathId s.dir fl) = none)) :
    Goldenhour.build exif cutoff (pre ++ s :: post)
        = Goldenhour.build exif cutoff (pre ++ post)
    ∧ Goldenhour.timeline exif cutoff (pre ++ s :: post)
        = Goldenhour.timeline exif cutoff (pre ++ post)
    ∧ Overlapping.build exif cutoff_ovl (pre ++ s :: post)
        = Overlapping.build exif cutoff_ovl (pre ++ post)
    ∧ Overlapping.timeline exif cutoff_ovl (pre ++ s :: post)
        = Overlapping.timeline exif cutoff_ovl (pre ++ post) := by
  have hbuild : Goldenhour.build exif cutoff (pre ++ s :: post)
      = Goldenhour.build exif cutoff (pre ++ post) := by
    unfold Goldenhour.build
    rw [List.flatMap_append, List.flatMap_append, List.flatMap_cons,
      golden_session_output_eq_nil exif cutoff s hfail, List.nil_append]
  have hbuild_ovl : Overlapping.build exif cutoff_ovl (pre ++ s :: post)
      = Overlapping.build exif cutoff_ovl (pre ++ post) := by
    unfold Overlapping.build
    rw [List.flatMap_append, List.flatMap_append, List.flatMap_cons,
      overlapping_session_output_eq_nil exif cutoff_ovl s hfail, List.nil_append]
  exact ⟨hbuild, by unfold Goldenhour.timeline; rw [hbuild],
    hbuild_ovl, by unfold Overlapping.timeline; rw [hbuild_ovl]⟩

/-- C9 witness: with a reader that always fails, the session in directory 1
is skipped atomically by every builder and indexing proceeds with the
session in directory 2. -/
theorem spec_c9_witness :
    Goldenhour.build (fun _ => none) none ([] ++ (⟨1, [3]⟩ : Session) :: [⟨2, [5]⟩])
        = Goldenhour.build (fun _ => none) none ([] ++ [⟨2, [5]⟩])
    ∧ Goldenhour.timeline (fun _ => none) none ([] ++ (⟨1, [3]⟩ : Session) :: [⟨2, [5]⟩])
        = Goldenhour.timeline (fun _ => none) none ([] ++ [⟨2, [5]⟩])
    ∧ Overlapping.build (fun _ => none) 0 ([] ++ (⟨1, [3]⟩ : Session) :: [⟨2, [5]⟩])
        = Overlapping.build (fun _ => none) 0 ([] ++ [⟨2, [5]⟩])
    ∧ Overlapping.timeline (fun _ => none) 0 ([] ++ (⟨1, [3]⟩ : Session) :: [⟨2, [5]⟩])
        = Overlapping.timeline (fun _ => none) 0 ([] ++ [⟨2, [5]⟩]) :=
  spec_c9_atomic_skip (fun _ => none) none 0 [] [⟨2, [5]⟩] ⟨1, [3]⟩
    (Or.inl ⟨3, by decide, rfl⟩)

/-- C9 counterexample: as stated, the claim is false of
automate_timelapse.find_frames_for_event (cited at lines 96-99).  When the
first frame's EXIF read fails, the function does not skip: it substitutes
the file's modification time as a fallback timestamp and returns the same
frame range it would return had the EXIF read yielded that time, rather
than returning the skip value None. -/
theorem spec_c9_counterexample :
    Timelapse.find_frames_for_event true none 0 100 60 30 10 (1/2) = some (1, 1801)
    ∧ Timelapse.find_frames_for_event true none 0 100 60 30 10 (1/2)
        = Timelapse.find_frames_for_event true (some 0) 0 100 60 30 10 (1/2)
    ∧ Timelapse.find_frames_for_event true none 0 100 60 30 10 (1/2) ≠ none := by
  have hval : Timelapse.find_frames_for_event true none 0 100 60 30 10 (1/2)
      = some (1, 1801) := by
    simp only [Timelapse.find_frames_for_event, pyInt, Option.getD]
    norm_num
  have hval2 : Timelapse.find_frames_for_event true (some 0) 0 100 60 30 10 (1/2)
      = some (1, 1801) := by
    simp only [Timelapse.find_frames_for_event, pyInt, Option.getD]
    norm_num
  refine ⟨hval, hval.trans hval2.symm, by rw [hval]; exact Option.some_ne_none _⟩

/-! Claim theorems for the timestamp interpolation. -/

/-- C2 (amended): in the goldenhour / rewind indexing variants, a session of
N ≥ 2 frames whose first and last capture times t0 and tn were read
successfully assigns frame i (0-based, in filename order) exactly the
timestamp t0 + i * (tn - t0) / (N - 1). -/
theorem spec_c2_interpolation (dir : ℕ) (fs : List ℕ) (t0 tn : ℚ) (i : ℕ)
    (hN : 2 ≤ fs.length) (hi : i < fs.length) :
    ∃ f : ℕ, fs[i]? = some f ∧
      (Goldenhour.session_frames dir fs t0 tn)[i]?
        = some (t0 + (i : ℚ) * ((tn - t0) / ((fs.length : ℚ) - 1)), pathId dir f) := by
  refine ⟨fs[i], List.getElem?_eq_getElem hi, ?_⟩
  simp only [Goldenhour.session_frames]
  rw [if_pos (show 1 < fs.length by omega)]
  rw [List.getElem?_map, List.getElem?_enum, List.getElem?_eq_getElem hi]
  rfl

/-- C2 witness: the concrete case of the claim: a session of 101 frames with
t0 = 12:00:00 and t100 = 12:16:40 (43200 s and 44200 s of the day) assigns
frame 50 the timestamp 12:08:20 (43700 s). -/
theorem spec_c2_witness :
    (Goldenhour.session_frames 0 (List.range 101) 43200 44200)[50]?
      = some ((43700 : ℚ), pathId 0 50) := by
  obtain ⟨f, hf, hr⟩ :=
    spec_c2_interpolation 0 (List.range 101) 43200 44200 50 (by simp) (by simp)
  rw [List.getElem?_range (by norm_num)] at hf
  obtain rfl : f = 50 := by simpa using hf.symm
  rw [hr]
  norm_num

/-- C2 counterexample: the claim quantifies over every indexing variant, but
automate_overlapping_timelapse (lines 85-88) does not interpolate: it assigns
frame i the timestamp t0 + 10*i regardless of the last capture time.  A
session of two frames read as t0 = 0 and tn = 40 indexes its second frame at
timestamp 10, while the claimed formula t0 + 1*(tn - t0)/(2 - 1) gives 40. -/
theorem spec_c2_counterexample :
    Overlapping.timeline exif_c2 0 [⟨7, [0, 1]⟩]
        = [((0 : ℚ), pathId 7 0), ((10 : ℚ), pathId 7 1)]
    ∧ ((10 : ℚ) ≠ 0 + (1 : ℚ) * ((40 - 0) / ((2 : ℚ) - 1))) := by
  constructor
  · have h1 : Overlapping.build exif_c2 0 [⟨7, [0, 1]⟩]
        = [((0 : ℚ), pathId 7 0), ((10 : ℚ), pathId 7 1)] := by
      simp [Overlapping.build, Overlapping.session_output, sortedFiles,
        List.insertionSort, List.orderedInsert, exif_c2, pathId,
        Overlapping.session_frames, List.enum]
    simp [Overlapping.timeline, h1, List.insertionSort, List.orderedInsert, lexLe]
  · norm_num

/-! Claim theorems for the global sort of the index. -/

/-- Tuple order refines timestamp order. -/
theorem lexLe_ts_le {a b : Frame} (h : lexLe a b) : tsLe a b :=
  h.elim (fun h1 => le_of_lt h1) (fun h1 => le_of_eq h1.1)

/-- Stability of one ordered insertion w.r.t. the timestamp order: the frames
at any fixed timestamp t appear in the same order as in x :: l. -/
theorem filter_orderedInsert_ts (x : Frame) (l : List Frame) (t : ℚ) :
    (List.orderedInsert tsLe x l).filter (fun f => decide (f.1 = t))
      = (x :: l).filter (fun f => decide (f.1 = t)) := by
  induction l with
  | nil => rfl
  | cons b l ih =>
    by_cases hab : tsLe x b
    · rw [List.orderedInsert, if_pos hab]
    · rw [List.orderedInsert, if_neg hab]
      have hab2 : ¬ (x.1 ≤ b.1) := hab
      have hbx : b.1 < x.1 := lt_of_not_le hab2
      by_cases hx : x.1 = t
      · have hb : ¬ (b.1 = t) := by
          intro hb
          rw [hx, hb] at hbx
          exact lt_irrefl t hbx
        simp [List.filter_cons, ih, hx, hb]
      · by_cases hb : b.1 = t
        · simp [List.filter_cons, ih, hx, hb]
        · simp [List.filter_cons, ih, hx, hb]

/-- Stability of the goldenhour / rewind sort: sorting with
key=lambda x: x[0] preserves the relative (discovery) order of the frames
that share a timestamp. -/
theorem filter_insertionSort_ts (l : List Frame) (t : ℚ) :
    (List.insertionSort tsLe l).filter (fun f => decide (f.1 = t))
      = l.filter (fun f => decide (f.1 = t)) := by
  induction l with
  | nil => rfl
  | cons a l ih =>
    rw [List.insertionSort, filter_orderedInsert_ts]
    simp [List.filter_cons, ih]

/-- C3 (amended): after every index build the frame sequence is
non-decreasing in timestamp, for every variant and every directory
visitation order.  In the goldenhour / rewind variants the sort is the
stable sort on the timestamp key, so frames with equal timestamps keep
their original discovery (append) order.  The overlapping variant instead
sorts the raw (timestamp, path) tuples, so its equal-timestamp frames are
ordered by path, not by discovery order (see the counterexample). -/
theorem spec_c3_sorted_stable :
    (∀ (exif : ℕ → Option ℚ) (cutoff : Option ℚ) (ss : List Session),
        List.Sorted tsLe (Goldenhour.timeline exif cutoff ss))
    ∧ (∀ (exif : ℕ → Option ℚ) (cutoff : Option ℚ) (ss : List Session) (t : ℚ),
        (Goldenhour.timeline exif cutoff ss).filter (fun f => decide (f.1 = t))
          = (Goldenhour.build exif cutoff ss).filter (fun f => decide (f.1 = t)))
    ∧ (∀ (exif : ℕ → Option ℚ) (cutoff : ℚ) (ss : List Session),
        List.Sorted tsLe (Overlapping.timeline exif cutoff ss)) := by
  refine ⟨fun exif cutoff ss => ?_, fun exif cutoff ss t => ?_, fun exif cutoff ss => ?_⟩
  · exact List.sorted_insertionSort tsLe _
  · exact filter_insertionSort_ts _ t
  · exact List.Pairwise.imp lexLe_ts_le (List.sorted_insertionSort lexLe _)

/-- C3 counterexample: the stable-tie-break clause fails for the overlapping
variant.  Two single-frame sessions with the same capture time 5, visited in
the order directory 1 then directory 0, are appended in that discovery
order; the raw accumulator is already non-decreasing in timestamp, so the
claimed stable tie-break would leave it unchanged, but the bare tuple sort
of line 90 reorders the two frames by path. -/
theorem spec_c3_counterexample :
    Overlapping.build exif_c3 0 [⟨1, [10]⟩, ⟨0, [10]⟩]
        = [((5 : ℚ), pathId 1 10), ((5 : ℚ), pathId 0 10)]
    ∧ Overlapping.timeline exif_c3 0 [⟨1, [10]⟩, ⟨0, [10]⟩]
        = [((5 : ℚ), pathId 0 10), ((5 : ℚ), pathId 1 10)]
    ∧ Overlapping.timeline exif_c3 0 [⟨1, [10]⟩, ⟨0, [10]⟩]
        ≠ Overlapping.build exif_c3 0 [⟨1, [10]⟩, ⟨0, [10]⟩] := by
  have hbd : Overlapping.build exif_c3 0 [⟨1, [10]⟩, ⟨0, [10]⟩]
      = [((5 : ℚ), pathId 1 10), ((5 : ℚ), pathId 0 10)] := by
    norm_num [Overlapping.build, Overlapping.session_output, sortedFiles,
      List.insertionSort, List.orderedInsert, exif_c3, pathId,
      Overlapping.session_frames, List.enum]
  have htl : Overlapping.timeline exif_c3 0 [⟨1, [10]⟩, ⟨0, [10]⟩]
      = [((5 : ℚ), pathId 0 10), ((5 : ℚ), pathId 1 10)] := by
    simp [Overlapping.timeline, hbd, List.insertionSort, List.orderedInsert,
      lexLe, pathId]
  refine ⟨hbd, htl, ?_⟩
  rw [htl, hbd]
  intro h
  simp [pathId] at h

/-! Claim theorems for rangeByAnchor. -/

/-- Helper: in a tuple-sorted frame list, once the head timestamp has
reached t no later frame has timestamp below t. -/
theorem countP_tail_eq_zero {t : ℚ} (a : Frame) (l : List Frame)
    (hal : ∀ b ∈ l, lexLe a b) (ha : ¬ a.1 < t) :
    l.countP (fun f => decide (f.1 < t)) = 0 := by
  rw [List.countP_eq_zero]
  intro b hb
  have hab := lexLe_ts_le (hal b hb)
  simp only [decide_eq_true_eq]
  exact not_lt.mpr (le_trans (not_lt.mp ha) hab)

/-- Helper: the frames strictly before the bisection point of a sorted list
all have timestamps below the probe. -/
theorem sorted_countP_lt (l : List Frame) (hs : List.Sorted lexLe l) (t : ℚ) :
    ∀ j : ℕ, j < l.countP (fun f => decide (f.1 < t)) →
      ∃ fr : Frame, l[j]? = some fr ∧ fr.1 < t := by
  induction l with
  | nil => intro j hj; simp at hj
  | cons a l ih =>
    rw [List.sorted_cons] at hs
    intro j hj
    by_cases ha : a.1 < t
    · rw [List.countP_cons_of_pos _ _ (by simpa using ha)] at hj
      cases j with
      | zero => exact ⟨a, by simp, ha⟩
      | succ j =>
        obtain ⟨fr, hfr, hlt⟩ := ih hs.2 j (by omega)
        exact ⟨fr, by simpa using hfr, hlt⟩
    · rw [List.countP_cons_of_neg _ _ (by simpa using ha),
        countP_tail_eq_zero a l hs.1 ha] at hj
      omega

/-- Helper: the frame at the bisection point of a sorted list is the first
frame whose timestamp is at least the probe. -/
theorem sorted_countP_ge (l : List Frame) (hs : List.Sorted lexLe l) (t : ℚ)
    (h : l.countP (fun f => decide (f.1 < t)) < l.length) :
    ∃ fr : Frame, l[l.countP (fun f => decide (f.1 < t))]? = some fr ∧ t ≤ fr.1 := by
  induction l with
  | nil => simp at h
  | cons a l ih =>
    rw [List.sorted_cons] at hs
    by_cases ha : a.1 < t
    · rw [List.countP_cons_of_pos _ _ (by simpa using ha)] at h ⊢
      obtain ⟨fr, hfr, hge⟩ := ih hs.2 (by simpa using h)
      exact ⟨fr, by simpa using hfr, hge⟩
    · rw [List.countP_cons_of_neg _ _ (by simpa using ha)] at h ⊢
      rw [countP_tail_eq_zero a l hs.1 ha]
      exact ⟨a, by simp, not_lt.mp ha⟩

/-- Helper: Python int() of a nonnegative rational is its floor. -/
theorem pyInt_of_nonneg {q : ℚ} (h : 0 ≤ q) : pyInt q = ⌊q⌋ :=
  if_neg (not_lt.mpr h)

/-- Helper: for a positive frame budget and a centering ratio in [0, 1) the
computed frames_before lies in [0, num_frames). -/
theorem frames_before_bounds (duration_sec : ℕ) (center_ratio : ℚ)
    (hdur : 0 < duration_sec) (hr0 : 0 ≤ center_ratio) (hr1 : center_ratio < 1) :
    0 ≤ Overlapping.frames_before duration_sec center_ratio
    ∧ Overlapping.frames_before duration_sec center_ratio < (duration_sec : ℤ) * 30 := by
  have hq : (0 : ℚ) ≤ (duration_sec : ℚ) * 30 * center_ratio := by positivity
  unfold Overlapping.frames_before
  rw [pyInt_of_nonneg hq]
  constructor
  · exact Int.floor_nonneg.mpr hq
  · rw [Int.floor_lt]
    push_cast
    have hd : (0 : ℚ) < (duration_sec : ℚ) * 30 := by positivity
    nlinarith

/-- Helper: basic bounds of the clamped index window of get_range: it lies
inside the archive and its width is min(num_frames, archive length). -/
theorem window_bounds_spec (frames : List Frame) (target : ℚ) (duration_sec : ℕ)
    (center_ratio : ℚ) :
    0 ≤ (Overlapping.window_bounds frames target duration_sec center_ratio).1
    ∧ (Overlapping.window_bounds frames target duration_sec center_ratio).1
        ≤ (Overlapping.window_bounds frames target duration_sec center_ratio).2
    ∧ (Overlapping.window_bounds frames target duration_sec center_ratio).2
        ≤ ((List.insertionSort lexLe frames).length : ℤ)
    ∧ (Overlapping.window_bounds frames target duration_sec center_ratio).2
        - (Overlapping.window_bounds frames target duration_sec center_ratio).1
      = min ((duration_sec : ℤ) * 30) ((List.insertionSort lexLe frames).length : ℤ) := by
  have hidx0 : 0 ≤ Overlapping.anchor_index frames target := Int.natCast_nonneg _
  have hidxle : Overlapping.anchor_index frames target
      ≤ ((List.insertionSort lexLe frames).length : ℤ) := by
    unfold Overlapping.anchor_index
    exact_mod_cast List.countP_le_length _
  simp only [Overlapping.window_bounds]
  split_ifs with hcase
  · refine ⟨by omega, by omega, by omega, by omega⟩
  · refine ⟨by omega, by omega, by omega, by omega⟩

/-- Helper: get_range always returns exactly min(num_frames, archive length)
frames, whatever the ratio and clamping situation. -/
theorem get_range_length (frames : List Frame) (target : ℚ) (duration_sec : ℕ)
    (center_ratio : ℚ) :
    (Overlapping.get_range frames target duration_sec center_ratio).length
      = min (duration_sec * 30) frames.length := by
  obtain ⟨h0, h12, h2len, hdiff⟩ := window_bounds_spec frames target duration_sec center_ratio
  have hlen : (List.insertionSort lexLe frames).length = frames.length :=
    List.length_insertionSort _ _
  unfold Overlapping.get_range
  rw [List.length_take, List.length_drop]
  omega

/-- C1 (amended): get_range(target, duration, ratio), with
num_frames = duration*30 > 0 and ratio in [0, 1), returns exactly
min(num_frames, archiveLength) frames (this length clause needs no ratio
restriction), and whenever neither the left clamp (start floored at 0) nor
the right shift (end capped at the archive length) fires, the element at
position floor(num_frames * ratio) of the result is exactly the first frame
of the sorted archive whose timestamp is ≥ target.  At ratio = 1 the claimed
anchor position equals num_frames and falls outside the returned window, so
the original claim fails there (see the counterexample). -/
theorem spec_c1_range_by_anchor (frames : List Frame) (target : ℚ)
    (duration_sec : ℕ) (center_ratio : ℚ) (hdur : 0 < duration_sec)
    (hr0 : 0 ≤ center_ratio) (hr1 : center_ratio < 1) :
    (Overlapping.get_range frames target duration_sec center_ratio).length
        = min (duration_sec * 30) frames.length
    ∧ (Overlapping.frames_before duration_sec center_ratio
          ≤ Overlapping.anchor_index frames target →
       Overlapping.anchor_index frames target
          - Overlapping.frames_before duration_sec center_ratio
          + (duration_sec : ℤ) * 30 ≤ (frames.length : ℤ) →
       ∃ fr : Frame,
         (List.insertionSort lexLe frames)[(Overlapping.anchor_index frames target).toNat]?
            = some fr
         ∧ target ≤ fr.1
         ∧ (∀ j : ℕ, (j : ℤ) < Overlapping.anchor_index frames target →
              ∃ fr2 : Frame,
                (List.insertionSort lexLe frames)[j]? = some fr2 ∧ fr2.1 < target)
         ∧ (Overlapping.get_range frames target duration_sec center_ratio)[
              (Overlapping.frames_before duration_sec center_ratio).toNat]? = some fr) := by
  refine ⟨get_range_length frames target duration_sec center_ratio, ?_⟩
  intro hnc hns
  have hsorted : List.Sorted lexLe (List.insertionSort lexLe frames) :=
    List.sorted_insertionSort lexLe frames
  have hlen : (List.insertionSort lexLe frames).length = frames.length :=
    List.length_insertionSort _ _
  obtain ⟨hb0, hblt⟩ := frames_before_bounds duration_sec center_ratio hdur hr0 hr1
  have hidxnat : Overlapping.anchor_index frames target
      = (((List.insertionSort lexLe frames).countP fun f => decide (f.1 < target) : ℕ) : ℤ) :=
    rfl
  have hidxlt : ((List.insertionSort lexLe frames).countP fun f => decide (f.1 < target))
      < (List.insertionSort lexLe frames).length := by
    omega
  obtain ⟨fr, hfr, hge⟩ := sorted_countP_ge _ hsorted target hidxlt
  have hwb : Overlapping.window_bounds frames target duration_sec center_ratio
      = (Overlapping.anchor_index frames target
            - Overlapping.frames_before duration_sec center_ratio,
         Overlapping.anchor_index frames target
            - Overlapping.frames_before duration_sec center_ratio
            + (duration_sec : ℤ) * 30) := by
    simp only [Overlapping.window_bounds]
    rw [max_eq_right (by omega : (0 : ℤ)
      ≤ Overlapping.anchor_index frames target
          - Overlapping.frames_before duration_sec center_ratio)]
    rw [if_neg (by omega)]
  refine ⟨fr, ?_, hge, ?_, ?_⟩
  · rw [hidxnat]
    simpa using hfr
  · intro j hj
    exact sorted_countP_lt _ hsorted target j (by omega)
  · unfold Overlapping.get_range
    rw [hwb]
    simp only
    rw [List.getElem?_take, if_pos (by omega), List.getElem?_drop]
    rw [show (Overlapping.anchor_index frames target
        - Overlapping.frames_before duration_sec center_ratio).toNat
        + (Overlapping.frames_before duration_sec center_ratio).toNat
        = (Overlapping.anchor_index frames target).toNat by omega]
    rw [hidxnat]
    simpa using hfr

/-- Helper: the sample archive is already tuple-sorted. -/
theorem sample_frames_sorted : List.Sorted lexLe sample_frames := by
  unfold sample_frames
  refine List.Pairwise.map _ ?_ (List.pairwise_lt_range 40)
  intro a b hab
  exact Or.inl (show ((a : ℕ) : ℚ) < ((b : ℕ) : ℚ) by exact_mod_cast hab)

/-- Helper: sorting the sample archive leaves it unchanged. -/
theorem insertionSort_sample :
    List.insertionSort lexLe sample_frames = sample_frames :=
  List.Sorted.insertionSort_eq sample_frames_sorted

/-- Helper: element lookup in the sample archive. -/
theorem sample_frames_getElem (n : ℕ) (hn : n < 40) :
    sample_frames[n]? = some (((n : ℕ) : ℚ), n) := by
  unfold sample_frames
  rw [List.getElem?_map, List.getElem?_range hn]
  rfl

/-- Helper: the bisection index of the sample archive at a whole-number
probe n is n itself. -/
theorem anchor_index_sample (n : ℕ) (t : ℚ) (ht : t = (n : ℚ))
    (hcount : (List.range 40).countP (fun i => decide (i < n)) = n) :
    Overlapping.anchor_index sample_frames t = (n : ℤ) := by
  unfold Overlapping.anchor_index
  rw [insertionSort_sample]
  unfold sample_frames
  rw [List.countP_map]
  rw [List.countP_congr (q := fun i => decide (i < n)) ?_]
  · rw [hcount]
  · intro a _
    subst ht
    constructor
    · intro h
      simp only [Function.comp, decide_eq_true_eq] at h ⊢
      exact_mod_cast h
    · intro h
      simp only [Function.comp, decide_eq_true_eq] at h ⊢
      exact_mod_cast h

/-- C1 witness: archive of 40 frames at timestamps 0..39, probe 20,
duration 1 s (30 frames), ratio 1/2, so frames_before = 15; neither clamp
fires, the result has min(30, 40) = 30 frames, and the anchor frame
(timestamp 20) sits at position 15 of the result. -/
theorem spec_c1_witness :
    (Overlapping.get_range sample_frames 20 1 (1/2)).length = min 30 40
    ∧ (Overlapping.get_range sample_frames 20 1 (1/2))[(15 : ℕ)]?
        = some ((20 : ℚ), 20) := by
  have hfb : Overlapping.frames_before 1 (1/2) = 15 := by
    unfold Overlapping.frames_before pyInt
    norm_num
  have hai : Overlapping.anchor_index sample_frames 20 = 20 :=
    anchor_index_sample 20 20 (by norm_num) (by decide)
  have hlen40 : sample_frames.length = 40 := by
    unfold sample_frames
    simp
  obtain ⟨hL, hpos⟩ := spec_c1_range_by_anchor sample_frames 20 1 (1/2)
    (by norm_num) (by norm_num) (by norm_num)
  obtain ⟨fr, hfr, hge, hfirst, hres⟩ := hpos (by rw [hfb, hai]; norm_num)
    (by rw [hfb, hai, hlen40]; norm_num)
  constructor
  · rw [hL, hlen40]
  · rw [hai, insertionSort_sample] at hfr
    have h20 : ((20 : ℤ).toNat) = (20 : ℕ) := rfl
    rw [h20, sample_frames_getElem 20 (by norm_num)] at hfr
    obtain rfl : (((20 : ℕ) : ℚ), (20 : ℕ)) = fr := Option.some.inj hfr
    rw [hfb] at hres
    have h15 : ((15 : ℤ).toNat) = (15 : ℕ) := rfl
    rw [h15] at hres
    rw [hres]
    norm_num

/-- C1 counterexample: the claim as stated fails at centerRatio = 1.  With
the 40-frame sample archive, probe 35, duration 1 s (30 frames) and ratio
1, frames_before = floor(30*1) = 30 ≤ anchorIndex = 35 (the left clamp does
not fire) and 35 - 30 + 30 = 35 ≤ 40 (the right shift does not fire); the
first frame with timestamp ≥ 35 exists (timestamp 35 at archive position
35), yet position floor(30*1) = 30 of the returned 30-frame sequence does
not exist, so the anchor frame cannot sit there. -/
theorem spec_c1_counterexample :
    Overlapping.frames_before 1 1 = 30
    ∧ Overlapping.anchor_index sample_frames 35 = 35
    ∧ (sample_frames.length : ℤ) = 40
    ∧ (List.insertionSort lexLe sample_frames)[(35 : ℕ)]? = some ((35 : ℚ), 35)
    ∧ (Overlapping.get_range sample_frames 35 1 1)[(30 : ℕ)]? = none := by
  have hfb : Overlapping.frames_before 1 1 = 30 := by
    unfold Overlapping.frames_before pyInt
    norm_num
  have hai : Overlapping.anchor_index sample_frames 35 = 35 :=
    anchor_index_sample 35 35 (by norm_num) (by decide)
  have hlen40 : sample_frames.length = 40 := by
    unfold sample_frames
    simp
  refine ⟨hfb, hai, by exact_mod_cast hlen40, ?_, ?_⟩
  · rw [insertionSort_sample, sample_frames_getElem 35 (by norm_num)]
    norm_num
  · apply List.getElem?_eq_none
    rw [get_range_length, hlen40]
    norm_num

namespace Solar

/-! Numeric bounds on the solar computation, valid for every fractional-year
angle; they drive the sunrise-before-sunset theorem. -/

/-- Helper: the equation-of-time correction is at most about 20.5 minutes. -/
theorem eqtime_bound (g : ℝ) : |eqtime g| ≤ 20.51 := by
  have h1 := Real.neg_one_le_cos g
  have h2 := Real.cos_le_one g
  have h3 := Real.neg_one_le_sin g
  have h4 := Real.sin_le_one g
  have h5 := Real.neg_one_le_cos (2 * g)
  have h6 := Real.cos_le_one (2 * g)
  have h7 := Real.neg_one_le_sin (2 * g)
  have h8 := Real.sin_le_one (2 * g)
  rw [abs_le]
  unfold eqtime
  constructor <;> nlinarith

/-- Helper: the declination series is bounded by 0.48893 rad (about 28°). -/
theorem decl_bound (g : ℝ) : |decl g| ≤ 0.48893 := by
  have h1 := Real.neg_one_le_cos g
  have h2 := Real.cos_le_one g
  have h3 := Real.neg_one_le_sin g
  have h4 := Real.sin_le_one g
  have h5 := Real.neg_one_le_cos (2 * g)
  have h6 := Real.cos_le_one (2 * g)
  have h7 := Real.neg_one_le_sin (2 * g)
  have h8 := Real.sin_le_one (2 * g)
  have h9 := Real.neg_one_le_cos (3 * g)
  have h10 := Real.cos_le_one (3 * g)
  have h11 := Real.neg_one_le_sin (3 * g)
  have h12 := Real.sin_le_one (3 * g)
  rw [abs_le]
  unfold decl
  constructor <;> nlinarith

/-- Helper: absolute-value form of sin x ≤ x. -/
theorem abs_sin_le (x : ℝ) : |Real.sin x| ≤ |x| := by
  rcases eq_or_ne x 0 with h | h
  · simp [h]
  · exact (Real.abs_sin_lt_abs h).le

/-- Helper: cosine of the declination stays close to one. -/
theorem cos_decl_ge (g : ℝ) : 0.8804 ≤ Real.cos (decl g) := by
  have h := Real.one_sub_sq_div_two_le_cos (x := decl g)
  have hb := decl_bound g
  rw [abs_le] at hb
  nlinarith [hb.1, hb.2]

/-- Helper: tangent of the declination is bounded. -/
theorem tan_decl_bound (g : ℝ) : |Real.tan (decl g)| ≤ 0.5554 := by
  have hc := cos_decl_ge g
  rw [Real.tan_eq_sin_div_cos, abs_div,
    abs_of_pos (by linarith : (0 : ℝ) < Real.cos (decl g))]
  rw [div_le_iff₀ (by linarith)]
  have hs : |Real.sin (decl g)| ≤ |decl g| := abs_sin_le _
  have hd := decl_bound g
  linarith

/-- Helper: the latitude constant in radians. -/
theorem rad_lat_mem : 0.65958 ≤ rad_lat ∧ rad_lat ≤ 0.65960 := by
  unfold rad_lat radiansOf LATITUDE
  constructor <;> nlinarith [Real.pi_gt_d6, Real.pi_lt_d6]

/-- Helper: cosine of the latitude. -/
theorem cos_rad_lat_ge : 0.7824 ≤ Real.cos rad_lat := by
  obtain ⟨h1, h2⟩ := rad_lat_mem
  nlinarith [Real.one_sub_sq_div_two_le_cos (x := rad_lat),
    mul_nonneg (by linarith : (0 : ℝ) ≤ 0.6596 - rad_lat)
      (by linarith : (0 : ℝ) ≤ rad_lat + 0.6596)]

/-- Helper: sine of the latitude. -/
theorem sin_rad_lat_mem : 0 ≤ Real.sin rad_lat ∧ Real.sin rad_lat ≤ 0.6596 := by
  obtain ⟨h1, h2⟩ := rad_lat_mem
  constructor
  · exact Real.sin_nonneg_of_nonneg_of_le_pi (by linarith)
      (by nlinarith [Real.pi_gt_d6])
  · have h3 := Real.sin_lt (x := rad_lat) (by linarith)
    linarith

/-- Helper: tangent of the latitude. -/
theorem tan_rad_lat_mem : 0 ≤ Real.tan rad_lat ∧ Real.tan rad_lat ≤ 0.8431 := by
  obtain ⟨hs0, hs1⟩ := sin_rad_lat_mem
  have hc := cos_rad_lat_ge
  rw [Real.tan_eq_sin_div_cos]
  constructor
  · exact div_nonneg hs0 (by linarith)
  · rw [div_le_iff₀ (by linarith)]
    linarith

/-- Helper: cosine of the refraction-corrected zenith 90.833°, slightly
below zero. -/
theorem cos_zenith_mem :
    -0.01454 ≤ Real.cos (radiansOf 90.833)
    ∧ Real.cos (radiansOf 90.833) ≤ -0.0145 := by
  have hz : radiansOf 90.833 = 0.833 * Real.pi / 180 + Real.pi / 2 := by
    unfold radiansOf
    ring
  rw [hz, Real.cos_add_pi_div_two]
  have hd1 : (0.0145385 : ℝ) ≤ 0.833 * Real.pi / 180 := by
    nlinarith [Real.pi_gt_d6]
  have hd2 : (0.833 * Real.pi / 180 : ℝ) ≤ 0.0145387 := by
    nlinarith [Real.pi_lt_d6]
  have hs1 := Real.sin_lt (x := 0.833 * Real.pi / 180) (by linarith)
  have hs2 := Real.sin_gt_sub_cube (x := 0.833 * Real.pi / 180)
    (by linarith) (by linarith)
  have hcube : (0.833 * Real.pi / 180) ^ 3 ≤ (0.0145387 : ℝ) ^ 3 :=
    pow_le_pow_left₀ (by linarith) hd2 3
  constructor
  · nlinarith
  · nlinarith

/-- Helper: the hour-angle cosine at San Francisco stays well inside
(-1, 1) for every date: every date is non-polar there. -/
theorem cos_ha_mem (g : ℝ) : -0.49 ≤ cos_ha g ∧ cos_ha g ≤ 0.469 := by
  unfold cos_ha cos_ha_z
  have hcz := cos_zenith_mem
  have hcl := cos_rad_lat_ge
  have hcl2 : Real.cos rad_lat ≤ 1 := Real.cos_le_one _
  have hcd := cos_decl_ge g
  have hcd2 : Real.cos (decl g) ≤ 1 := Real.cos_le_one _
  have htl := tan_rad_lat_mem
  have htd := tan_decl_bound g
  rw [abs_le] at htd
  have hD : (0.6888 : ℝ) ≤ Real.cos rad_lat * Real.cos (decl g) := by
    nlinarith [mul_nonneg (by linarith : (0 : ℝ) ≤ Real.cos rad_lat - 0.7824)
      (by linarith : (0 : ℝ) ≤ Real.cos (decl g) - 0.8804)]
  have hDpos : (0 : ℝ) < Real.cos rad_lat * Real.cos (decl g) := by linarith
  have hF1 : Real.cos (radiansOf 90.833) / (Real.cos rad_lat * Real.cos (decl g)) ≤ 0 :=
    div_nonpos_iff.mpr (Or.inr ⟨by linarith [hcz.2], by linarith⟩)
  have hF2 : (-0.0212 : ℝ)
      ≤ Real.cos (radiansOf 90.833) / (Real.cos rad_lat * Real.cos (decl g)) := by
    rw [le_div_iff₀ hDpos]
    nlinarith [hcz.1]
  have hT1 : Real.tan rad_lat * Real.tan (decl g) ≤ 0.4683 := by
    nlinarith [mul_le_mul_of_nonneg_left htd.2 htl.1,
      mul_le_mul_of_nonneg_right htl.2 (by norm_num : (0 : ℝ) ≤ 0.5554)]
  have hT2 : (-0.4683 : ℝ) ≤ Real.tan rad_lat * Real.tan (decl g) := by
    nlinarith [mul_le_mul_of_nonneg_left htd.1 htl.1,
      mul_le_mul_of_nonneg_right htl.2 (by norm_num : (0 : ℝ) ≤ 0.5554)]
  constructor <;> linarith

/-- Helper: the hour angle arccos(cos_ha) lies strictly between 1 rad and
2.132 rad for every date. -/
theorem arccos_cos_ha_mem (g : ℝ) :
    1 < Real.arccos (cos_ha g) ∧ Real.arccos (cos_ha g) < 2.132 := by
  obtain ⟨hm1, hm2⟩ := cos_ha_mem g
  have hca : Real.cos (Real.arccos (cos_ha g)) = cos_ha g :=
    Real.cos_arccos (by linarith) (by linarith)
  constructor
  · by_contra hc
    push_neg at hc
    have h1 := Real.cos_le_cos_of_nonneg_of_le_pi (Real.arccos_nonneg _)
      (by linarith [Real.pi_gt_three]) hc
    rw [hca] at h1
    nlinarith [Real.one_sub_sq_div_two_le_cos (x := (1 : ℝ))]
  · by_contra hc
    push_neg at hc
    have h1 := Real.cos_le_cos_of_nonneg_of_le_pi
      (by norm_num : (0 : ℝ) ≤ 2.132) (Real.arccos_le_pi _) hc
    rw [hca] at h1
    have h2 : Real.cos (2.132 : ℝ) ≤ -0.4903 := by
      have h3 := Real.cos_pi_sub (Real.pi - 2.132)
      have h4 : Real.pi - (Real.pi - 2.132) = (2.132 : ℝ) := by ring
      rw [h4] at h3
      have h5 : Real.pi - (2.132 : ℝ) ≤ 1.009593 := by
        linarith [Real.pi_lt_d6]
      have h6 : (1.009592 : ℝ) ≤ Real.pi - 2.132 := by
        linarith [Real.pi_gt_d6]
      have h7 := Real.one_sub_sq_div_two_le_cos (x := Real.pi - 2.132)
      nlinarith [mul_nonneg (by linarith : (0 : ℝ) ≤ 1.009593 - (Real.pi - 2.132))
        (by linarith : (0 : ℝ) ≤ (Real.pi - 2.132) + 1.009593)]
    linarith

/-- Helper: the hour angle in degrees lies between 57.29° and 122.16°. -/
theorem ha_deg_mem (g : ℝ) :
    57.29 ≤ degreesOf (Real.arccos (cos_ha g))
    ∧ degreesOf (Real.arccos (cos_ha g)) ≤ 122.16 := by
  obtain ⟨h1, h2⟩ := arccos_cos_ha_mem g
  have hpi1 := Real.pi_gt_d6
  have hpi2 := Real.pi_lt_d6
  have hpip : (0 : ℝ) < Real.pi := by linarith
  unfold degreesOf
  constructor
  · rw [le_div_iff₀ hpip]
    nlinarith
  · rw [div_le_iff₀ hpip]
    nlinarith

/-- Helper: solar noon in UTC minutes stays within [1189.15, 1230.18]. -/
theorem noon_mem (g : ℝ) :
    1189.15 ≤ solar_noon_utc g ∧ solar_noon_utc g ≤ 1230.18 := by
  have h := eqtime_bound g
  rw [abs_le] at h
  unfold solar_noon_utc LONGITUDE
  constructor <;> linarith

/-- Helper: the Python float modulo is the identity inside [0, y). -/
theorem pyMod_eq_self {x y : ℝ} (hy : 0 < y) (h0 : 0 ≤ x) (h1 : x < y) :
    pyMod x y = x := by
  unfold pyMod
  have hf : ⌊x / y⌋ = 0 := by
    rw [Int.floor_eq_zero_iff]
    exact Set.mem_Ico.mpr ⟨by positivity, by rwa [div_lt_one hy]⟩
  rw [hf]
  simp

/-- Helper: the (hour, minute) pair that the scripts build from a local
minute count lm encodes exactly floor(lm) total minutes. -/
theorem floor_split (lm : ℝ) :
    ⌊lm / 60⌋ * 60 + pyIntR (pyMod lm 60) = ⌊lm⌋ := by
  have h0 : (0 : ℝ) ≤ pyMod lm 60 := by
    unfold pyMod
    have h1 := Int.floor_le (lm / 60)
    have h2 : (⌊lm / 60⌋ : ℝ) * 60 ≤ lm := by
      rw [← le_div_iff₀ (by norm_num : (0 : ℝ) < 60)]
      exact h1
    linarith
  unfold pyIntR
  rw [if_neg (not_lt.mpr h0)]
  unfold pyMod
  have h2 : lm - 60 * (⌊lm / 60⌋ : ℝ) = lm - ((60 * ⌊lm / 60⌋ : ℤ) : ℝ) := by
    push_cast
    ring
  rw [h2, Int.floor_sub_int]
  omega

/-- Helper: explicit value of get_sun_time for the sunset branch when the
date is non-polar. -/
theorem get_sun_time_false_eq (offset : ℝ) (d : ℕ)
    (h : ¬ (1 < cos_ha (gamma d) ∨ cos_ha (gamma d) < -1))
    (hD : 0 ≤ degreesOf (Real.arccos (cos_ha (gamma d)))) :
    get_sun_time offset d false
      = some (⌊pyMod (solar_noon_utc (gamma d)
            + 4 * degreesOf (Real.arccos (cos_ha (gamma d))) + offset * 60) 1440 / 60⌋,
          pyIntR (pyMod (pyMod (solar_noon_utc (gamma d)
            + 4 * degreesOf (Real.arccos (cos_ha (gamma d))) + offset * 60) 1440) 60)) := by
  simp only [get_sun_time, if_neg h, Bool.false_eq_true, if_false]
  rw [max_eq_right (by linarith)]

/-- Helper: explicit value of get_sun_time for the sunrise branch when the
date is non-polar. -/
theorem get_sun_time_true_eq (offset : ℝ) (d : ℕ)
    (h : ¬ (1 < cos_ha (gamma d) ∨ cos_ha (gamma d) < -1))
    (hD : 0 ≤ degreesOf (Real.arccos (cos_ha (gamma d)))) :
    get_sun_time offset d true
      = some (⌊pyMod (solar_noon_utc (gamma d)
            - 4 * degreesOf (Real.arccos (cos_ha (gamma d))) + offset * 60) 1440 / 60⌋,
          pyIntR (pyMod (pyMod (solar_noon_utc (gamma d)
            - 4 * degreesOf (Real.arccos (cos_ha (gamma d))) + offset * 60) 1440) 60)) := by
  simp only [get_sun_time, if_neg h, if_true]
  have hneg : degreesOf (-Real.arccos (cos_ha (gamma d)))
      = -(degreesOf (Real.arccos (cos_ha (gamma d)))) := by
    unfold degreesOf
    ring
  rw [hneg]
  have he1 : solar_noon_utc (gamma d) - 4 * -(degreesOf (Real.arccos (cos_ha (gamma d))))
      = solar_noon_utc (gamma d) + 4 * degreesOf (Real.arccos (cos_ha (gamma d))) := by
    ring
  have he2 : solar_noon_utc (gamma d) + 4 * -(degreesOf (Real.arccos (cos_ha (gamma d))))
      = solar_noon_utc (gamma d) - 4 * degreesOf (Real.arccos (cos_ha (gamma d))) := by
    ring
  rw [he1, he2]
  rw [min_eq_right (by linarith)]

end Solar

/-- C6: computeEventTime returns an instant exactly when the hour-angle
cosine lies in [-1, 1] and returns the no-event value otherwise, for every
date, event kind, zenith angle and applied offset; the polar out-of-domain
condition is a total, non-error outcome of both embedded variants. -/
theorem spec_c6_no_event :
    (∀ (offset : ℝ) (d : ℕ) (sunrise : Bool),
        (Solar.get_sun_time offset d sunrise).isSome
          ↔ |Solar.cos_ha (Solar.gamma d)| ≤ 1)
    ∧ (∀ (zenith_deg : ℝ) (d : ℕ),
        (Solar.get_sun_time_z zenith_deg d).isSome
          ↔ |Solar.cos_ha_z zenith_deg (Solar.gamma d)| ≤ 1) := by
  constructor
  · intro offset d sunrise
    by_cases h : 1 < Solar.cos_ha (Solar.gamma d) ∨ Solar.cos_ha (Solar.gamma d) < -1
    · simp only [Solar.get_sun_time, if_pos h, Option.isSome_none,
        Bool.false_eq_true, false_iff, abs_le, not_and, not_le]
      intro h1
      rcases h with h | h
      · exact h
      · exact absurd h1 (by linarith)
    · simp only [Solar.get_sun_time, if_neg h, Option.isSome_some, true_iff, abs_le]
      push_neg at h
      exact ⟨by linarith [h.2], h.1⟩
  · intro zenith_deg d
    by_cases h : 1 < Solar.cos_ha_z zenith_deg (Solar.gamma d)
        ∨ Solar.cos_ha_z zenith_deg (Solar.gamma d) < -1
    · simp only [Solar.get_sun_time_z, if_pos h, Option.isSome_none,
        Bool.false_eq_true, false_iff, abs_le, not_and, not_le]
      intro h1
      rcases h with h | h
      · exact h
      · exact absurd h1 (by linarith)
    · simp only [Solar.get_sun_time_z, if_neg h, Option.isSome_some, true_iff, abs_le]
      push_neg at h
      exact ⟨by linarith [h.2], h.1⟩

/-- C7: for every date (all of which are non-polar at this latitude: the
hour-angle cosine always lies inside (-1, 1) here) and for each of the two
UTC offsets the scripts ever apply (-8 fixed in automate_timelapse, -8 or
-7 from the DST table in automate_overlapping_timelapse), both crossings
exist and the local (hour, minute) instant returned for sunrise on a date
is strictly earlier than the one returned for sunset on the same date. -/
theorem spec_c7_sunrise_before_sunset (d : ℕ) (offset : ℝ)
    (hoff : offset = -8 ∨ offset = -7) :
    ∃ h1 m1 h2 m2 : ℤ,
      Solar.get_sun_time offset d true = some (h1, m1)
      ∧ Solar.get_sun_time offset d false = some (h2, m2)
      ∧ h1 * 60 + m1 < h2 * 60 + m2 := by
  obtain ⟨hc1, hc2⟩ := Solar.cos_ha_mem (Solar.gamma d)
  have hbr : ¬ (1 < Solar.cos_ha (Solar.gamma d)
      ∨ Solar.cos_ha (Solar.gamma d) < -1) := by
    push_neg
    constructor <;> linarith
  obtain ⟨hd1, hd2⟩ := Solar.ha_deg_mem (Solar.gamma d)
  obtain ⟨hn1, hn2⟩ := Solar.noon_mem (Solar.gamma d)
  have hoffb : (-480 : ℝ) ≤ offset * 60 ∧ offset * 60 ≤ -420 := by
    rcases hoff with h | h <;> rw [h] <;> norm_num
  have hRlo : (0 : ℝ) ≤ Solar.solar_noon_utc (Solar.gamma d)
      - 4 * Solar.degreesOf (Real.arccos (Solar.cos_ha (Solar.gamma d))) + offset * 60 := by
    linarith [hoffb.1]
  have hRhi : Solar.solar_noon_utc (Solar.gamma d)
      - 4 * Solar.degreesOf (Real.arccos (Solar.cos_ha (Solar.gamma d))) + offset * 60
      < (1440 : ℝ) := by
    linarith [hoffb.2]
  have hSlo : (0 : ℝ) ≤ Solar.solar_noon_utc (Solar.gamma d)
      + 4 * Solar.degreesOf (Real.arccos (Solar.cos_ha (Solar.gamma d))) + offset * 60 := by
    linarith [hoffb.1]
  have hShi : Solar.solar_noon_utc (Solar.gamma d)
      + 4 * Solar.degreesOf (Real.arccos (Solar.cos_ha (Solar.gamma d))) + offset * 60
      < (1440 : ℝ) := by
    linarith [hoffb.2]
  rw [Solar.get_sun_time_true_eq offset d hbr (by linarith),
    Solar.get_sun_time_false_eq offset d hbr (by linarith)]
  rw [Solar.pyMod_eq_self (by norm_num) hRlo hRhi,
    Solar.pyMod_eq_self (by norm_num) hSlo hShi]
  refine ⟨_, _, _, _, rfl, rfl, ?_⟩
  rw [Solar.floor_split, Solar.floor_split]
  have hdiff : Solar.solar_noon_utc (Solar.gamma d)
      - 4 * Solar.degreesOf (Real.arccos (Solar.cos_ha (Solar.gamma d))) + offset * 60
      + ((458 : ℤ) : ℝ)
      ≤ Solar.solar_noon_utc (Solar.gamma d)
      + 4 * Solar.degreesOf (Real.arccos (Solar.cos_ha (Solar.gamma d))) + offset * 60 := by
    push_cast
    linarith
  have hfl := Int.floor_le_floor hdiff
  rw [Int.floor_add_int] at hfl
  omega

/-- C7 witness: at day-of-year 349 (2025-12-15) with the fixed PST offset,
sunrise is returned strictly before sunset. -/
theorem spec_c7_witness :
    ∃ h1 m1 h2 m2 : ℤ,
      Solar.get_sun_time (-8) 349 true = some (h1, m1)
      ∧ Solar.get_sun_time (-8) 349 false = some (h2, m2)
      ∧ h1 * 60 + m1 < h2 * 60 + m2 :=
  spec_c7_sunrise_before_sunset 349 (-8) (Or.inl rfl)

end TimeLapse
